import Mathlib

/-!
Shallow embedding of `src/goit-pycore-hw-08.py`: a contact directory with
validated fields (`Name`, `Phone`, `Birthday`), phone operations on records,
a name-keyed address book, the upcoming-birthdays query with weekend
adjustment, and the `add_contact` command handler.

Python's `datetime.date` is modelled by a civil-calendar triple together
with a days-since-epoch conversion (proleptic Gregorian, exactly the
calendar `datetime` implements); mutation is modelled by explicit state
passing, and raised exceptions by `Except String`.
-/

set_option autoImplicit false

namespace HW08

/-! ### Calendar model (Python `datetime.date`) -/

/-- Gregorian leap-year rule, as used by `datetime`. -/
def isLeap (y : Nat) : Bool := y % 4 = 0 && (y % 100 ≠ 0 || y % 400 = 0)

/-- Length of month `m` in year `y` (for `1 ≤ m ≤ 12`). -/
def daysInMonth (y m : Nat) : Nat :=
  if m = 2 then (if isLeap y then 29 else 28)
  else if m = 4 ∨ m = 6 ∨ m = 9 ∨ m = 11 then 30
  else 31

/-- A calendar date as Python's `datetime.date` stores it: year, month, day. -/
structure PyDate where
  year : Nat
  month : Nat
  day : Nat
deriving DecidableEq, Repr

/-- Python `datetime.date(y, m, d)` succeeds exactly on these triples
(`MINYEAR = 1`, `MAXYEAR = 9999`). -/
def isValidDate (y m d : Nat) : Bool :=
  1 ≤ y && y ≤ 9999 && 1 ≤ m && m ≤ 12 && 1 ≤ d && d ≤ daysInMonth y m

/-- Day count of a civil date (days since 0000-03-01, standard
`days_from_civil` algorithm); differences of `toDays` give `timedelta.days`
for valid dates. -/
def toDays (dt : PyDate) : Nat :=
  let y := if dt.month ≤ 2 then dt.year - 1 else dt.year
  let era := y / 400
  let yoe := y % 400
  let mp := (dt.month + 9) % 12
  let doy := (153 * mp + 2) / 5 + dt.day - 1
  let doe := yoe * 365 + yoe / 4 - yoe / 100 + doy
  era * 146097 + doe

/-- Python `date.weekday()`: Monday = 0, ..., Sunday = 6. -/
def weekday (dt : PyDate) : Nat := (toDays dt + 2) % 7

/-- Difference `(a - b).days` for dates `a`, `b`. -/
def diffDays (a b : PyDate) : Int := (toDays a : Int) - (toDays b : Int)

/-- Python's `<` on dates (chronological order). -/
def dateLt (a b : PyDate) : Bool := toDays a < toDays b

/-- The day after `dt` (`dt + timedelta(days=1)`). -/
def nextDay (dt : PyDate) : PyDate :=
  if dt.day < daysInMonth dt.year dt.month then ⟨dt.year, dt.month, dt.day + 1⟩
  else if dt.month < 12 then ⟨dt.year, dt.month + 1, 1⟩
  else ⟨dt.year + 1, 1, 1⟩

/-- Shift `dt + timedelta(days=n)` for `n ≥ 0`. -/
def addDays : Nat → PyDate → PyDate
  | 0, dt => dt
  | n + 1, dt => addDays n (nextDay dt)

/-- Left zero-padding to width 2 (`strftime` `%m` / `%d`). -/
def pad2 (n : Nat) : String := if n < 10 then "0" ++ toString n else toString n

/-- Left zero-padding to width 4 (`strftime` `%Y` for the four-digit years
occurring here). -/
def pad4 (n : Nat) : String :=
  if n < 10 then "000" ++ toString n
  else if n < 100 then "00" ++ toString n
  else if n < 1000 then "0" ++ toString n
  else toString n

/-- Format `date.strftime("%Y-%m-%d")`. -/
def formatISO (dt : PyDate) : String :=
  pad4 dt.year ++ "-" ++ pad2 dt.month ++ "-" ++ pad2 dt.day

/-! ### Field validators -/

/-- Starts of the decimal-digit blocks recognised by `\d` on Python `str`
(Unicode category Nd): ASCII and the BMP blocks relevant to this model. -/
def ndRangeStarts : List Nat :=
  [0x30, 0x660, 0x6F0, 0x7C0, 0x966, 0x9E6, 0xA66, 0xAE6, 0xB66, 0xBE6,
   0xC66, 0xCE6, 0xD66, 0xE50, 0xED0, 0xF20, 0x1040, 0x17E0, 0xFF10]

/-- Python regex `\d` on a `str`: any Unicode decimal digit. -/
def pyIsDigit (c : Char) : Bool :=
  ndRangeStarts.any (fun r => r ≤ c.toNat && c.toNat < r + 10)

/-- Numeric value of a decimal digit accepted by `pyIsDigit`. -/
def pyDigitVal (c : Char) : Nat :=
  match ndRangeStarts.find? (fun r => r ≤ c.toNat && c.toNat < r + 10) with
  | some r => c.toNat - r
  | none => 0

/-- Consume exactly `n` digits from the front, returning the rest. -/
def matchDigits : Nat → List Char → Option (List Char)
  | 0, cs => some cs
  | _ + 1, [] => none
  | n + 1, c :: cs => if pyIsDigit c then matchDigits n cs else none

/-- Test `re.match(r'^\d{10}$', s) is not None`: ten digits, then the end of the
string — where `$` also matches just before one final newline. -/
def phoneRegexOk (s : String) : Bool :=
  match matchDigits 10 s.data with
  | some [] => true
  | some [c] => c == '\n'
  | _ => false

/-- Constructor `Name(value)`: rejects the empty string, else stores it. -/
def mkName (s : String) : Except String String :=
  if s = "" then .error "Please enter the name." else .ok s

/-- Constructor `Phone(value)`: stores `value` iff the 10-digit regex matches. -/
def mkPhone (s : String) : Except String String :=
  if phoneRegexOk s then .ok s else .error "Phone number must be exactly 10 digits."

/-! ### `strptime(value, "%d.%m.%Y")` -/

/-- Greedily read one or two digits (the `%d` / `%m` patterns), returning
the value and the rest; accepted iff the value lies in `[lo, hi]`. -/
def parseNum2 (lo hi : Nat) : List Char → Option (Nat × List Char)
  | c1 :: c2 :: cs =>
    if pyIsDigit c1 then
      if pyIsDigit c2 then
        let v := 10 * pyDigitVal c1 + pyDigitVal c2
        if lo ≤ v ∧ v ≤ hi then some (v, cs) else none
      else
        if lo ≤ pyDigitVal c1 ∧ pyDigitVal c1 ≤ hi then some (pyDigitVal c1, c2 :: cs) else none
    else none
  | [c1] =>
    if pyIsDigit c1 ∧ lo ≤ pyDigitVal c1 ∧ pyDigitVal c1 ≤ hi then some (pyDigitVal c1, []) else none
  | [] => none

/-- Read exactly four digits (the `%Y` pattern). -/
def parseNum4 : List Char → Option (Nat × List Char)
  | c1 :: c2 :: c3 :: c4 :: cs =>
    if pyIsDigit c1 && pyIsDigit c2 && pyIsDigit c3 && pyIsDigit c4 then
      some (1000 * pyDigitVal c1 + 100 * pyDigitVal c2 + 10 * pyDigitVal c3 + pyDigitVal c4, cs)
    else none
  | _ => none

/-- Expect the literal character `c` at the front. -/
def expectChar (c : Char) : List Char → Option (List Char)
  | c' :: cs => if c' = c then some cs else none
  | [] => none

/-- Parse `datetime.strptime(s, "%d.%m.%Y")`, as a date: day (1–31, one or two
digits), dot, month (1–12, one or two digits), dot, four-digit year, end of
input; the triple must be a real calendar date. -/
def parseDateDMY (s : String) : Option PyDate := do
  let (d, cs) ← parseNum2 1 31 s.data
  let cs ← expectChar '.' cs
  let (m, cs) ← parseNum2 1 12 cs
  let cs ← expectChar '.' cs
  let (y, cs) ← parseNum4 cs
  if cs = [] ∧ isValidDate y m d then some ⟨y, m, d⟩ else none

/-- Constructor `Birthday(value)`: stores the string iff `strptime` accepts it. -/
def mkBirthday (s : String) : Except String String :=
  if (parseDateDMY s).isSome then .ok s else .error "birthday format must be DD.MM.YYYY"

/-! ### `Record` -/

/-- A contact record: validated name, stored phone strings in insertion
order, optional validated birthday string. -/
structure Record where
  name : String
  phones : List String
  birthday : Option String
deriving DecidableEq, Repr

namespace Record

/-- Method `Record.add_phone`: validate, then append. A raised `ValueError` leaves
the record untouched (the `Phone` constructor runs before the append). -/
def add_phone (r : Record) (p : String) : Except String Record :=
  match mkPhone p with
  | .error e => .error e
  | .ok v => .ok { r with phones := r.phones ++ [v] }

/-- Method `Record.find_phone`: first stored phone whose value equals `p`. -/
def find_phone (r : Record) (p : String) : Option String :=
  r.phones.find? (fun q => q == p)

/-- Method `Record.remove_phone`: drop the first occurrence of `p` if present;
returns the new state and whether a removal occurred. -/
def remove_phone (r : Record) (p : String) : Record × Bool :=
  match r.find_phone p with
  | some _ => ({ r with phones := r.phones.erase p }, true)
  | none => (r, false)

/-- Method `Record.edit_phone`: raise if `old` is absent; otherwise append `new`
(validating it first — a validation failure leaves the record unchanged)
and then remove the first occurrence of `old`. The post-state is returned
alongside the outcome, since Python mutates in place. -/
def edit_phone (r : Record) (old new : String) : Record × Except String Unit :=
  match r.find_phone old with
  | none => (r, .error ("Phone number " ++ old ++ " not found."))
  | some _ =>
    match r.add_phone new with
    | .error e => (r, .error e)
    | .ok r1 => ((r1.remove_phone old).1, .ok ())

/-- Method `Record.add_birthday`: validate and overwrite. -/
def add_birthday (r : Record) (b : String) : Except String Record :=
  match mkBirthday b with
  | .error e => .error e
  | .ok v => .ok { r with birthday := some v }

end Record

/-! ### `AddressBook` -/

/-- Model of `AddressBook` (a `UserDict`): insertion-ordered association list with
unique keys, as Python's `dict` behaves. -/
abbrev AddressBook := List (String × Record)

/-- Assignment `self.data[k] = record`: update in place if the key exists (its position
is preserved, as for a `dict`), else append. -/
def dictInsert (book : AddressBook) (k : String) (r : Record) : AddressBook :=
  match book with
  | [] => [(k, r)]
  | (k', r') :: t => if k' = k then (k, r) :: t else (k', r') :: dictInsert t k r

/-- Method `AddressBook.add_record`: store under the record's own name. -/
def add_record (book : AddressBook) (r : Record) : AddressBook :=
  dictInsert book r.name r

/-- Method `AddressBook.find`: `self.data.get(name, None)`. -/
def bookFind (book : AddressBook) (name : String) : Option Record :=
  match book with
  | [] => none
  | (k, r) :: t => if k = name then some r else bookFind t name

/-- Method `AddressBook.delete`: remove the entry if present, report success. -/
def bookDelete (book : AddressBook) (name : String) : AddressBook × Bool :=
  match bookFind book name with
  | some _ => (book.eraseP (fun e => e.1 == name), true)
  | none => (book, false)

/-- Iteration `self.data.values()` in insertion order. -/
def values (book : AddressBook) : List Record := book.map (·.2)

/-! ### Birthday window query -/

/-- One element of the query result: the `{"name": ..., "birthday": ...}`
dictionary. -/
structure UpEntry where
  name : String
  birthday : String
deriving DecidableEq, Repr

/-- Method `AddressBook._find_next_weekday` as called on a weekend date: ahead 2
days from Saturday, 1 from Sunday, 0 otherwise. -/
def find_next_weekday (start_date : PyDate) : PyDate :=
  let days_ahead := if weekday start_date = 5 then 2
    else if weekday start_date = 6 then 1 else 0
  addDays days_ahead start_date

/-- Method `AddressBook._adjust_for_weekend`. -/
def adjust_for_weekend (birthday : PyDate) : PyDate :=
  if 5 ≤ weekday birthday then find_next_weekday birthday else birthday

/-- Call `birth_day.replace(year=y)`: same month and day in year `y`; raises
`ValueError` when that triple is not a real date (e.g. Feb 29 in a common
year). -/
def replaceYear (birth : PyDate) (y : Nat) : Except String PyDate :=
  if isValidDate y birth.month birth.day then .ok ⟨y, birth.month, birth.day⟩
  else .error "day is out of range for month"

/-- The candidate anniversary date: this year's occurrence, or next year's
when this year's has already passed. -/
def candidateFor (today birth : PyDate) : Except String PyDate :=
  match replaceYear birth today.year with
  | .error e => .error e
  | .ok c0 => if dateLt c0 today then replaceYear birth (today.year + 1) else .ok c0

/-- The loop body of `get_upcoming_birthdays` for one record: `none` when
the record is skipped, `some entry` when it is reported. -/
def processRecord (today : PyDate) (days : Int) (r : Record) :
    Except String (Option UpEntry) :=
  match r.birthday with
  | none => .ok none
  | some bstr =>
    match parseDateDMY bstr with
    | none => .error "time data does not match format %d.%m.%Y"
    | some birth =>
      match candidateFor today birth with
      | .error e => .error e
      | .ok c =>
        if 0 ≤ diffDays c today ∧ diffDays c today ≤ days then
          .ok (some ⟨r.name, formatISO (adjust_for_weekend c)⟩)
        else .ok none

/-- The record loop, in insertion order; a raised error aborts the query. -/
def collectUpcoming (today : PyDate) (days : Int) : List Record → Except String (List UpEntry)
  | [] => .ok []
  | r :: rs =>
    match processRecord today days r with
    | .error e => .error e
    | .ok e? =>
      match collectUpcoming today days rs with
      | .error e => .error e
      | .ok rest =>
        match e? with
        | some e => .ok (e :: rest)
        | none => .ok rest

/-- Method `AddressBook.get_upcoming_birthdays(days)`. The Python method takes no
date argument: `today` here is the value `date.today()` returns inside the
method, i.e. the environment clock's date at call time. -/
def get_upcoming_birthdays (today : PyDate) (book : AddressBook) (days : Int) :
    Except String (List UpEntry) :=
  collectUpcoming today days (values book)

/-! ### The `add_contact` command handler -/

/-- Handler `add_contact(args, book)` for `args = [name, phone]`: find or create the
record, then append the phone when `phone` is truthy. The post-state is
returned alongside the outcome because a failure after `book.add_record`
leaves the new record in the book. -/
def add_contact (nm phone : String) (book : AddressBook) :
    AddressBook × Except String String :=
  match bookFind book nm with
  | some r =>
    if phone = "" then (book, .ok "Contact updated.")
    else
      match r.add_phone phone with
      | .ok r' => (dictInsert book nm r', .ok "Contact updated.")
      | .error e => (book, .error e)
  | none =>
    match mkName nm with
    | .error e => (book, .error e)
    | .ok _ =>
      let book1 := add_record book ⟨nm, [], none⟩
      if phone = "" then (book1, .ok "Contact added.")
      else
        match Record.add_phone ⟨nm, [], none⟩ phone with
        | .ok r' => (dictInsert book1 nm r', .ok "Contact added.")
        | .error e => (book1, .error e)

/-! ### Directory operation sequences (for the key invariant) -/

/-- One `AddressBook` operation of the claim: `add_record`, `delete`, or
(state-preserving) `find`. -/
inductive BookOp where
  | addRecord (r : Record)
  | delete (nm : String)
  | find (nm : String)

/-- Apply one operation to the book state. -/
def applyOp (book : AddressBook) : BookOp → AddressBook
  | .addRecord r => add_record book r
  | .delete nm => (bookDelete book nm).1
  | .find _ => book

/-- Run a sequence of operations from the empty book. -/
def runOps (ops : List BookOp) : AddressBook := ops.foldl applyOp []

/-! ### Helper lemmas -/

theorem bookFind_dictInsert_self (nm : String) (r : Record) :
    ∀ book : AddressBook, bookFind (dictInsert book nm r) nm = some r := by
  intro book
  induction book with
  | nil => simp [dictInsert, bookFind]
  | cons e t ih =>
    obtain ⟨k', r'⟩ := e
    by_cases h : k' = nm
    · simp [dictInsert, h, bookFind]
    · simp [dictInsert, h, bookFind, ih]

theorem bookFind_dictInsert_ne (nm k : String) (r : Record) (hk : k ≠ nm) :
    ∀ book : AddressBook, bookFind (dictInsert book nm r) k = bookFind book k := by
  intro book
  induction book with
  | nil => simp [dictInsert, bookFind, Ne.symm hk]
  | cons e t ih =>
    obtain ⟨k', r'⟩ := e
    by_cases h : k' = nm
    · subst h
      simp [dictInsert, bookFind, Ne.symm hk]
    · simp only [dictInsert, if_neg h]
      by_cases h2 : k' = k
      · simp [bookFind, h2]
      · simp [bookFind, h2, ih]

theorem mem_dictInsert (nm : String) (r : Record) (x : String × Record) :
    ∀ book : AddressBook, x ∈ dictInsert book nm r → x = (nm, r) ∨ x ∈ book := by
  intro book
  induction book with
  | nil => intro h; simp [dictInsert] at h; exact Or.inl h
  | cons e t ih =>
    obtain ⟨k', r'⟩ := e
    intro h
    by_cases hk : k' = nm
    · simp only [dictInsert, if_pos hk, List.mem_cons] at h
      rcases h with h | h
      · exact Or.inl h
      · exact Or.inr (List.mem_cons_of_mem _ h)
    · simp only [dictInsert, if_neg hk, List.mem_cons] at h
      rcases h with h | h
      · exact Or.inr (h ▸ List.mem_cons_self _ _)
      · rcases ih h with h' | h'
        · exact Or.inl h'
        · exact Or.inr (List.mem_cons_of_mem _ h')

theorem processRecord_ok_of_collect_ok (today : PyDate) (days : Int) :
    ∀ (rs : List Record) (l : List UpEntry), collectUpcoming today days rs = .ok l →
      ∀ r ∈ rs, ∃ o, processRecord today days r = .ok o := by
  intro rs
  induction rs with
  | nil => intro l _ r hr; cases hr
  | cons r0 rs ih =>
    intro l hl r hr
    cases hp : processRecord today days r0 with
    | error e => rw [collectUpcoming, hp] at hl; cases hl
    | ok o =>
      rcases List.mem_cons.mp hr with rfl | hr'
      · exact ⟨o, hp⟩
      · rw [collectUpcoming, hp] at hl
        cases hc : collectUpcoming today days rs with
        | error e => rw [hc] at hl; cases hl
        | ok rest => exact ih rest hc r hr'

theorem runOps_invariant_aux :
    ∀ (ops : List BookOp) (book : AddressBook),
      (∀ p ∈ book, (Prod.snd p).name = p.1) →
      ∀ p ∈ ops.foldl applyOp book, (Prod.snd p).name = p.1 := by
  intro ops
  induction ops with
  | nil => intro book hinv p hp; exact hinv p hp
  | cons op ops ih =>
    intro book hinv p hp
    rw [List.foldl_cons] at hp
    refine ih (applyOp book op) ?_ p hp
    intro q hq
    cases op with
    | addRecord r0 =>
      rcases mem_dictInsert r0.name r0 q book hq with h | h
      · rw [h]
      · exact hinv q h
    | delete nm =>
      rw [applyOp] at hq
      unfold bookDelete at hq
      cases hf : bookFind book nm with
      | some r1 =>
        rw [hf] at hq
        exact hinv q (List.Sublist.mem hq (List.eraseP_sublist _))
      | none => rw [hf] at hq; exact hinv q hq
    | find nm => exact hinv q hq

/-! ### C1: weekend shift affects only the reported date -/

/-- C1: for every record with a birthday, the query includes the record iff
its unshifted candidate `c` satisfies `0 ≤ (c - today).days ≤ horizon`; the
weekend shift (Sat `+2`, Sun `+1`, else unchanged) enters only the reported
string, never the inclusion test. Concretely, with today = 2024-06-10 and
birthday `15.06.1990`, the record is included and reported as 2024-06-17. -/
theorem upcoming_inclusion_unaffected_by_shift :
    (∀ (r : Record) (today birth c : PyDate) (days : Int) (bstr : String),
      r.birthday = some bstr →
      parseDateDMY bstr = some birth →
      candidateFor today birth = .ok c →
      processRecord today days r =
        (if 0 ≤ diffDays c today ∧ diffDays c today ≤ days
         then .ok (some ⟨r.name, formatISO (adjust_for_weekend c)⟩)
         else .ok none)) ∧
    (∀ d : PyDate, adjust_for_weekend d =
      if weekday d = 5 then addDays 2 d
      else if weekday d = 6 then addDays 1 d else d) ∧
    get_upcoming_birthdays ⟨2024, 6, 10⟩
        [("X", ⟨"X", [], some "15.06.1990"⟩)] 7 = .ok [⟨"X", "2024-06-17"⟩] := by
  refine ⟨?_, ?_, rfl⟩
  · intro r today birth c days bstr hb hparse hcand
    simp only [processRecord, hb, hparse, hcand]
  · intro d
    by_cases h5 : weekday d = 5
    · simp [adjust_for_weekend, find_next_weekday, h5]
    · by_cases h6 : weekday d = 6
      · simp [adjust_for_weekend, find_next_weekday, h5, h6]
      · have hlt : weekday d < 7 := Nat.mod_lt _ (by norm_num)
        have : ¬ 5 ≤ weekday d := by omega
        simp [adjust_for_weekend, h5, h6, this]

/-- Witness for C1 at the spec's weekend-shift vector. -/
theorem upcoming_inclusion_unaffected_by_shift_witness :
    processRecord ⟨2024, 6, 10⟩ 7 ⟨"X", [], some "15.06.1990"⟩ =
      (if 0 ≤ diffDays ⟨2024, 6, 15⟩ ⟨2024, 6, 10⟩ ∧
          diffDays ⟨2024, 6, 15⟩ ⟨2024, 6, 10⟩ ≤ 7
       then .ok (some ⟨"X", formatISO (adjust_for_weekend ⟨2024, 6, 15⟩)⟩)
       else .ok none) :=
  upcoming_inclusion_unaffected_by_shift.1 ⟨"X", [], some "15.06.1990"⟩
    ⟨2024, 6, 10⟩ ⟨1990, 6, 15⟩ ⟨2024, 6, 15⟩ 7 "15.06.1990" rfl rfl rfl

/-! ### C5: year normalization of the candidate date -/

/-- C5: the candidate date keeps the birthday's day and month and lives in
`today.year`, except that when this year's occurrence is strictly before
`today` the year `today.year + 1` is used. With today = 2024-12-28,
birthday `02.01.1985` and horizon 7, the record is reported for
2025-01-02. -/
theorem candidate_year_rollover :
    (∀ (today birth c : PyDate), candidateFor today birth = .ok c →
      c.month = birth.month ∧ c.day = birth.day ∧
        (if dateLt ⟨today.year, birth.month, birth.day⟩ today
         then c.year = today.year + 1 else c.year = today.year)) ∧
    get_upcoming_birthdays ⟨2024, 12, 28⟩
        [("X", ⟨"X", [], some "02.01.1985"⟩)] 7 = .ok [⟨"X", "2025-01-02"⟩] := by
  constructor
  · intro today birth c hcand
    unfold candidateFor replaceYear at hcand
    by_cases hv : isValidDate today.year birth.month birth.day = true
    · simp only [hv, if_true] at hcand
      by_cases hlt : dateLt ⟨today.year, birth.month, birth.day⟩ today = true
      · simp only [hlt, if_true] at hcand
        by_cases hv2 : isValidDate (today.year + 1) birth.month birth.day = true
        · simp only [hv2, if_true, Except.ok.injEq] at hcand
          subst hcand
          simp [hlt]
        · simp [hv2] at hcand
      · simp only [hlt] at hcand
        simp only [Bool.false_eq_true, if_false, Except.ok.injEq] at hcand
        subst hcand
        simp [hlt]
    · simp [hv] at hcand
  · rfl

/-- Witness for C5 at the spec's rollover vector. -/
theorem candidate_year_rollover_witness :
    PyDate.month ⟨2025, 1, 2⟩ = PyDate.month ⟨1985, 1, 2⟩ ∧
      PyDate.day ⟨2025, 1, 2⟩ = PyDate.day ⟨1985, 1, 2⟩ ∧
      (if dateLt ⟨2024, 1, 2⟩ ⟨2024, 12, 28⟩
       then PyDate.year ⟨2025, 1, 2⟩ = 2024 + 1 else PyDate.year ⟨2025, 1, 2⟩ = 2024) :=
  candidate_year_rollover.1 ⟨2024, 12, 28⟩ ⟨1985, 1, 2⟩ ⟨2025, 1, 2⟩ rfl

/-! ### C6: February 29 birthdays abort the query in a common year -/

/-- C6: whenever the book contains a record whose stored birthday parses to
February 29 and `today.year` is not a leap year, `get_upcoming_birthdays`
raises (the candidate construction fails) instead of returning a list. -/
theorem feb29_common_year_raises :
    ∀ (book : AddressBook) (today : PyDate) (days : Int) (nm : String)
      (r : Record) (bstr : String) (y : Nat),
      (nm, r) ∈ book → r.birthday = some bstr →
      parseDateDMY bstr = some ⟨y, 2, 29⟩ → isLeap today.year = false →
      ∃ e, get_upcoming_birthdays today book days = .error e := by
  intro book today days nm r bstr y hmem hb hparse hleap
  have hvalid : isValidDate today.year 2 29 = false := by
    simp [isValidDate, daysInMonth, hleap]
  have hproc : processRecord today days r =
      .error "day is out of range for month" := by
    simp only [processRecord, hb, hparse, candidateFor, replaceYear, hvalid,
      Bool.false_eq_true, if_false]
  cases hres : get_upcoming_birthdays today book days with
  | error e => exact ⟨e, rfl⟩
  | ok l =>
    exfalso
    have hrv : r ∈ values book := List.mem_map_of_mem _ hmem
    rcases processRecord_ok_of_collect_ok today days (values book) l hres r hrv with ⟨o, ho⟩
    rw [hproc] at ho
    cases ho

/-- Witness for C6: a book holding birthday `29.02.1984` queried when the
clock reads 2025-02-01 (2025 is a common year). -/
theorem feb29_common_year_raises_witness :
    ∃ e, get_upcoming_birthdays ⟨2025, 2, 1⟩
        [("X", ⟨"X", [], some "29.02.1984"⟩)] 7 = .error e :=
  feb29_common_year_raises [("X", ⟨"X", [], some "29.02.1984"⟩)] ⟨2025, 2, 1⟩ 7
    "X" ⟨"X", [], some "29.02.1984"⟩ "29.02.1984" 1984
    (List.mem_singleton.mpr rfl) rfl rfl rfl

/-! ### C7: the reference date is the environment clock, not an argument -/

/-- C7 counterexample: with the directory and horizon fixed, the query's
result differs for two environment-clock dates, so the result is not a
function of the directory and horizon alone — yet the Python method's only
inputs are `self` and `days`, with `today = date.today()` read inside. The
claim's caller-supplied `today` does not exist in the code. -/
theorem clock_read_counterexample :
    get_upcoming_birthdays ⟨2024, 6, 10⟩
        [("X", ⟨"X", [], some "15.06.1990"⟩)] 7 = .ok [⟨"X", "2024-06-17"⟩] ∧
    get_upcoming_birthdays ⟨2024, 1, 1⟩
        [("X", ⟨"X", [], some "15.06.1990"⟩)] 7 = .ok [] ∧
    (Except.ok [(⟨"X", "2024-06-17"⟩ : UpEntry)] : Except String (List UpEntry)) ≠
      .ok [] := by
  refine ⟨rfl, rfl, ?_⟩
  intro h
  simp at h

/-- C7 as amended: the caller supplies only the directory and the horizon
(`days`, default 7); `today` is the date read from the environment clock,
and the result is a function of exactly these three. -/
theorem query_function_of_clock_book_horizon :
    ∀ (t1 t2 : PyDate) (b1 b2 : AddressBook) (d1 d2 : Int),
      t1 = t2 → b1 = b2 → d1 = d2 →
      get_upcoming_birthdays t1 b1 d1 = get_upcoming_birthdays t2 b2 d2 := by
  intro t1 t2 b1 b2 d1 d2 ht hb hd
  rw [ht, hb, hd]

/-- Witness for the amended C7. -/
theorem query_function_of_clock_book_horizon_witness :
    get_upcoming_birthdays ⟨2024, 6, 10⟩ [] 7 =
      get_upcoming_birthdays ⟨2024, 6, 10⟩ [] 7 :=
  query_function_of_clock_book_horizon ⟨2024, 6, 10⟩ ⟨2024, 6, 10⟩ [] [] 7 7
    rfl rfl rfl

/-! ### C8: every stored record's name equals its key -/

/-- C8: running any sequence of `add_record` / `delete` / `find` operations
from the empty book leaves only entries whose record name equals the key
they are stored under. -/
theorem stored_name_equals_key :
    ∀ (ops : List BookOp) (k : String) (r : Record),
      (k, r) ∈ runOps ops → r.name = k := by
  intro ops k r h
  exact runOps_invariant_aux ops [] (by intro p hp; cases hp) (k, r) h

/-- Witness for C8 after a single `add_record`. -/
theorem stored_name_equals_key_witness :
    Record.name ⟨"A", [], none⟩ = "A" :=
  stored_name_equals_key [BookOp.addRecord ⟨"A", [], none⟩] "A" ⟨"A", [], none⟩
    (List.mem_singleton.mpr rfl)

/-! ### C2: `edit_phone` on a record containing `old` -/

/-- C2 counterexample: a record holding `old` twice. `edit_phone` succeeds,
yet `find_phone old` still returns a match afterwards (only the first
occurrence was removed), contradicting the claim for records that contain
`old`. -/
theorem edit_phone_duplicate_counterexample :
    "1234567890" ∈ Record.phones ⟨"A", ["1234567890", "1234567890"], none⟩ ∧
    (Record.edit_phone ⟨"A", ["1234567890", "1234567890"], none⟩
        "1234567890" "0987654321").2 = .ok () ∧
    (Record.edit_phone ⟨"A", ["1234567890", "1234567890"], none⟩
        "1234567890" "0987654321").1.find_phone "1234567890" =
      some "1234567890" := by
  refine ⟨by simp, rfl, rfl⟩

/-- C2 as amended: for every record that contains `old` exactly once, and
`new ≠ old`, after a successful `edit_phone(old, new)` the record no longer
finds `old`, finds `new`, and its phone count is unchanged. -/
theorem edit_phone_unique_replaces (r : Record) (old new : String)
    (hcount : r.phones.count old = 1) (hne : new ≠ old)
    (hok : (r.edit_phone old new).2 = .ok ()) :
    (r.edit_phone old new).1.find_phone old = none ∧
    ((r.edit_phone old new).1.find_phone new).isSome = true ∧
    (r.edit_phone old new).1.phones.length = r.phones.length := by
  have hmem : old ∈ r.phones := List.count_pos_iff.mp (by rw [hcount]; exact Nat.one_pos)
  cases hf : r.find_phone old with
  | none =>
    rw [Record.find_phone, List.find?_eq_none] at hf
    exact absurd (by simp : (old == old) = true) (hf old hmem)
  | some x =>
    by_cases hp : phoneRegexOk new = true
    case neg =>
      have hmk : mkPhone new = .error "Phone number must be exactly 10 digits." := by
        rw [mkPhone, if_neg hp]
      have : (r.edit_phone old new).2 =
          .error "Phone number must be exactly 10 digits." := by
        simp [Record.edit_phone, hf, Record.add_phone, hmk]
      rw [this] at hok
      cases hok
    case pos =>
      have hmk : mkPhone new = .ok new := by rw [mkPhone, if_pos hp]
      have hmem1 : old ∈ r.phones ++ [new] := List.mem_append_left _ hmem
      have hcnt1 : (r.phones ++ [new]).count old = 1 := by
        rw [List.count_append, hcount,
          List.count_eq_zero_of_not_mem (by simpa using Ne.symm hne)]
      have hedit : (r.edit_phone old new).1 =
          { r with phones := (r.phones ++ [new]).erase old } := by
        simp only [Record.edit_phone, hf, Record.add_phone, hmk,
          Record.remove_phone]
        cases hf1 : Record.find_phone { r with phones := r.phones ++ [new] } old with
        | none =>
          rw [Record.find_phone, List.find?_eq_none] at hf1
          exact absurd (by simp : (old == old) = true) (hf1 old hmem1)
        | some y => rfl
      rw [hedit]
      refine ⟨?_, ?_, ?_⟩
      · rw [Record.find_phone, List.find?_eq_none]
        intro y hy hbeq
        have hyp : y = old := by simpa using hbeq
        rw [hyp] at hy
        have h0 : ((r.phones ++ [new]).erase old).count old = 0 := by
          rw [List.count_erase_self, hcnt1]
        exact absurd hy (List.count_eq_zero.mp h0)
      · rw [Record.find_phone, List.find?_isSome]
        exact ⟨new, (List.mem_erase_of_ne hne).mpr
          (List.mem_append_right _ (List.mem_singleton_self new)), by simp⟩
      · show ((r.phones ++ [new]).erase old).length = r.phones.length
        rw [List.length_erase_of_mem hmem1, List.length_append]
        simp

/-- Witness for the amended C2. -/
theorem edit_phone_unique_replaces_witness :
    (Record.edit_phone ⟨"A", ["1112223333"], none⟩
        "1112223333" "0987654321").1.find_phone "1112223333" = none ∧
    ((Record.edit_phone ⟨"A", ["1112223333"], none⟩
        "1112223333" "0987654321").1.find_phone "0987654321").isSome = true ∧
    (Record.edit_phone ⟨"A", ["1112223333"], none⟩
        "1112223333" "0987654321").1.phones.length =
      (Record.phones ⟨"A", ["1112223333"], none⟩).length :=
  edit_phone_unique_replaces ⟨"A", ["1112223333"], none⟩ "1112223333" "0987654321"
    (by simp) (by decide) rfl

/-! ### C9: `add_phone`/`find_phone`/`remove_phone` round trips -/

/-- C9 counterexample: a record holding the phone twice; after
`remove_phone` (which removes only the first occurrence) `find_phone`
still returns a match, contradicting the claim's universal removal part. -/
theorem remove_phone_duplicate_counterexample :
    ((Record.remove_phone ⟨"A", ["1234567890", "1234567890"], none⟩
        "1234567890").1.find_phone "1234567890") = some "1234567890" := rfl

/-- C9 as amended: a successful `add_phone p` makes `find_phone p` return a
match; and on every record in which `p` occurs at most once, `remove_phone p`
followed by `find_phone p` returns none. -/
theorem add_remove_find_roundtrip :
    (∀ (r r' : Record) (p : String), r.add_phone p = .ok r' →
      (r'.find_phone p).isSome = true) ∧
    (∀ (r : Record) (p : String), r.phones.count p ≤ 1 →
      ((r.remove_phone p).1.find_phone p) = none) := by
  constructor
  · intro r r' p hadd
    unfold Record.add_phone at hadd
    by_cases hp : phoneRegexOk p = true
    case neg => rw [mkPhone, if_neg hp] at hadd; cases hadd
    case pos =>
      rw [mkPhone, if_pos hp] at hadd
      cases hadd
      rw [Record.find_phone, List.find?_isSome]
      exact ⟨p, List.mem_append_right _ (List.mem_singleton_self p), by simp⟩
  · intro r p hcnt
    cases hf : r.find_phone p with
    | none =>
      have : (r.remove_phone p).1 = r := by
        simp only [Record.remove_phone, hf]
      rw [this, hf]
    | some x =>
      have hmem : p ∈ r.phones := by
        rw [Record.find_phone] at hf
        have hx : x = p := by simpa using List.find?_some hf
        exact hx ▸ List.mem_of_find?_eq_some hf
      have hcnt1 : r.phones.count p = 1 :=
        Nat.le_antisymm hcnt (List.count_pos_iff.mpr hmem)
      have : (r.remove_phone p).1 = { r with phones := r.phones.erase p } := by
        simp only [Record.remove_phone, hf]
      rw [this, Record.find_phone, List.find?_eq_none]
      intro y hy hbeq
      have hyp : y = p := by simpa using hbeq
      rw [hyp] at hy
      have h0 : (r.phones.erase p).count p = 0 := by
        rw [List.count_erase_self, hcnt1]
      exact absurd hy (List.count_eq_zero.mp h0)

/-- Witness for the amended C9. -/
theorem add_remove_find_roundtrip_witness :
    ((Record.find_phone ⟨"A", ["1112223333"], none⟩ "1112223333").isSome = true) ∧
    ((Record.remove_phone ⟨"A", ["0987654321"], none⟩ "0987654321").1.find_phone
        "0987654321" = none) :=
  ⟨add_remove_find_roundtrip.1 ⟨"A", [], none⟩ ⟨"A", ["1112223333"], none⟩
      "1112223333" rfl,
    add_remove_find_roundtrip.2 ⟨"A", ["0987654321"], none⟩ "0987654321" (by simp)⟩

/-! ### C3: state after failing operations -/

/-- C3 counterexample: `add_contact` on an absent name with an invalid
phone fails, but the directory is not left unchanged — an empty record was
created under the name before the validation error. -/
theorem add_contact_partial_mutation_counterexample :
    (add_contact "Alice" "123" []).2 =
      .error "Phone number must be exactly 10 digits." ∧
    (add_contact "Alice" "123" []).1 = [("Alice", ⟨"Alice", [], none⟩)] ∧
    ([("Alice", (⟨"Alice", [], none⟩ : Record))] : AddressBook) ≠ [] := by
  refine ⟨rfl, rfl, by simp⟩

/-- C3 as amended: `edit_phone` on a record lacking `old` fails with the
not-found error and leaves the record (hence its phone list and
cardinality) unchanged; a failing `add_contact` with an invalid non-empty
phone leaves the directory unchanged when the name already exists, but when
the name is absent it first inserts an empty record under the name and only
then fails — a partial mutation. -/
theorem failing_ops_final_state :
    (∀ (r : Record) (old new : String), r.find_phone old = none →
      (r.edit_phone old new).1 = r ∧
      (r.edit_phone old new).2 =
        .error ("Phone number " ++ old ++ " not found.")) ∧
    (∀ (book : AddressBook) (nm phone : String) (r : Record),
      bookFind book nm = some r → phone ≠ "" → phoneRegexOk phone = false →
      add_contact nm phone book =
        (book, .error "Phone number must be exactly 10 digits.")) ∧
    (∀ (book : AddressBook) (nm phone : String),
      bookFind book nm = none → nm ≠ "" → phone ≠ "" → phoneRegexOk phone = false →
      add_contact nm phone book =
        (add_record book ⟨nm, [], none⟩,
          .error "Phone number must be exactly 10 digits.")) := by
  refine ⟨?_, ?_, ?_⟩
  · intro r old new hf
    constructor <;> simp [Record.edit_phone, hf]
  · intro book nm phone r hfind hpne hbad
    simp only [add_contact, hfind, if_neg hpne, Record.add_phone, mkPhone,
      hbad, Bool.false_eq_true, if_false]
  · intro book nm phone hfind hnm hpne hbad
    simp only [add_contact, hfind, mkName, if_neg hnm, if_neg hpne,
      Record.add_phone, mkPhone, hbad, Bool.false_eq_true, if_false]

/-- Witness for the amended C3. -/
theorem failing_ops_final_state_witness :
    ((Record.edit_phone ⟨"A", ["1112223333"], none⟩ "0987654321" "1112223333").1 =
        ⟨"A", ["1112223333"], none⟩ ∧
      (Record.edit_phone ⟨"A", ["1112223333"], none⟩ "0987654321" "1112223333").2 =
        .error ("Phone number " ++ "0987654321" ++ " not found.")) ∧
    add_contact "Bob" "123" [("Bob", ⟨"Bob", ["1112223333"], none⟩)] =
      ([("Bob", ⟨"Bob", ["1112223333"], none⟩)],
        .error "Phone number must be exactly 10 digits.") ∧
    add_contact "Alice" "123" [] =
      (add_record [] ⟨"Alice", [], none⟩,
        .error "Phone number must be exactly 10 digits.") :=
  ⟨failing_ops_final_state.1 ⟨"A", ["1112223333"], none⟩ "0987654321"
      "1112223333" rfl,
    failing_ops_final_state.2.1 [("Bob", ⟨"Bob", ["1112223333"], none⟩)]
      "Bob" "123" ⟨"Bob", ["1112223333"], none⟩ rfl (by decide) (by decide),
    failing_ops_final_state.2.2 [] "Alice" "123" rfl (by decide) (by decide)
      (by decide)⟩

/-! ### C10: `add_contact` on an existing name appends -/

/-- C10: with a valid phone, `add_contact` on an existing name appends the
phone to that record — previous phones and the birthday survive, every
other entry is untouched — and answers "Contact updated."; on an absent
(non-empty) name it creates a record with that single phone and answers
"Contact added.". -/
theorem add_contact_appends_or_creates :
    (∀ (book : AddressBook) (nm phone : String) (r : Record),
      bookFind book nm = some r → phoneRegexOk phone = true →
      (add_contact nm phone book).2 = .ok "Contact updated." ∧
      bookFind (add_contact nm phone book).1 nm =
        some { r with phones := r.phones ++ [phone] } ∧
      ∀ k, k ≠ nm → bookFind (add_contact nm phone book).1 k = bookFind book k) ∧
    (∀ (book : AddressBook) (nm phone : String),
      bookFind book nm = none → nm ≠ "" → phoneRegexOk phone = true →
      (add_contact nm phone book).2 = .ok "Contact added." ∧
      bookFind (add_contact nm phone book).1 nm = some ⟨nm, [phone], none⟩ ∧
      ∀ k, k ≠ nm → bookFind (add_contact nm phone book).1 k = bookFind book k) := by
  constructor
  · intro book nm phone r hfind hok
    have hpne : phone ≠ "" := fun h => absurd (h ▸ hok) (by decide)
    have hadd : Record.add_phone r phone =
        .ok { r with phones := r.phones ++ [phone] } := by
      simp only [Record.add_phone, mkPhone, if_pos hok]
    have hstep : add_contact nm phone book =
        (dictInsert book nm { r with phones := r.phones ++ [phone] },
          .ok "Contact updated.") := by
      simp only [add_contact, hfind, if_neg hpne, hadd]
    rw [hstep]
    exact ⟨rfl, bookFind_dictInsert_self nm _ book,
      fun k hk => bookFind_dictInsert_ne nm k _ hk book⟩
  · intro book nm phone hfind hnm hok
    have hpne : phone ≠ "" := fun h => absurd (h ▸ hok) (by decide)
    have hadd : Record.add_phone ⟨nm, [], none⟩ phone =
        .ok ⟨nm, [phone], none⟩ := by
      simp only [Record.add_phone, mkPhone, if_pos hok]
      rfl
    have hstep : add_contact nm phone book =
        (dictInsert (add_record book ⟨nm, [], none⟩) nm ⟨nm, [phone], none⟩,
          .ok "Contact added.") := by
      simp only [add_contact, hfind, mkName, if_neg hnm, if_neg hpne, hadd]
    rw [hstep]
    refine ⟨rfl, bookFind_dictInsert_self nm _ _, fun k hk => ?_⟩
    rw [bookFind_dictInsert_ne nm k _ hk]
    show bookFind (dictInsert book nm ⟨nm, [], none⟩) k = bookFind book k
    exact bookFind_dictInsert_ne nm k _ hk book

/-- Witness for C10: updating an existing contact and creating a new one. -/
theorem add_contact_appends_or_creates_witness :
    (add_contact "Bob" "0987654321"
        [("Bob", ⟨"Bob", ["1234567890"], some "15.06.1990"⟩)]).2 =
      .ok "Contact updated." ∧
    bookFind (add_contact "Bob" "0987654321"
        [("Bob", ⟨"Bob", ["1234567890"], some "15.06.1990"⟩)]).1 "Bob" =
      some ⟨"Bob", ["1234567890", "0987654321"], some "15.06.1990"⟩ ∧
    (add_contact "Alice" "1234567890" []).2 = .ok "Contact added." ∧
    bookFind (add_contact "Alice" "1234567890" []).1 "Zoe" = bookFind [] "Zoe" :=
  ⟨(add_contact_appends_or_creates.1
      [("Bob", ⟨"Bob", ["1234567890"], some "15.06.1990"⟩)] "Bob" "0987654321"
      ⟨"Bob", ["1234567890"], some "15.06.1990"⟩ rfl rfl).1,
    (add_contact_appends_or_creates.1
      [("Bob", ⟨"Bob", ["1234567890"], some "15.06.1990"⟩)] "Bob" "0987654321"
      ⟨"Bob", ["1234567890"], some "15.06.1990"⟩ rfl rfl).2.1,
    (add_contact_appends_or_creates.2 [] "Alice" "1234567890" rfl (by decide)
      rfl).1,
    (add_contact_appends_or_creates.2 [] "Alice" "1234567890" rfl (by decide)
      rfl).2.2 "Zoe" (by decide)⟩

/-! ### C4: what the phone validator accepts -/

theorem matchDigits_eq_some :
    ∀ (n : Nat) (cs rest : List Char), matchDigits n cs = some rest ↔
      ∃ t, cs = t ++ rest ∧ t.length = n ∧ ∀ c ∈ t, pyIsDigit c := by
  intro n
  induction n with
  | zero =>
    intro cs rest
    constructor
    · intro h
      have hcs : cs = rest := by simpa [matchDigits] using h
      exact ⟨[], by simp [hcs], rfl, by simp⟩
    · rintro ⟨t, h1, h2, _⟩
      have ht : t = [] := List.length_eq_zero.mp h2
      subst ht
      simpa [matchDigits] using h1
  | succ n ih =>
    intro cs rest
    cases cs with
    | nil =>
      constructor
      · intro h; simp [matchDigits] at h
      · rintro ⟨t, h1, h2, _⟩
        have := (List.append_eq_nil.mp h1.symm).1
        subst this
        simp at h2
    | cons c cs' =>
      by_cases hd : pyIsDigit c = true
      · rw [matchDigits, if_pos hd, ih cs' rest]
        constructor
        · rintro ⟨t', h1, h2, h3⟩
          refine ⟨c :: t', by simp [h1], by simp [h2], ?_⟩
          intro x hx
          rcases List.mem_cons.mp hx with rfl | hx'
          · exact hd
          · exact h3 x hx'
        · rintro ⟨t, h1, h2, h3⟩
          cases t with
          | nil => simp at h2
          | cons t0 t1 =>
            have hc : c = t0 ∧ cs' = t1 ++ rest := by simpa using h1
            exact ⟨t1, hc.2, by simpa using h2,
              fun x hx => h3 x (List.mem_cons_of_mem _ hx)⟩
      · constructor
        · intro h
          rw [matchDigits, if_neg hd] at h
          cases h
        · rintro ⟨t, h1, h2, h3⟩
          cases t with
          | nil => simp at h2
          | cons t0 t1 =>
            have hc : c = t0 ∧ cs' = t1 ++ rest := by simpa using h1
            have hdig : pyIsDigit c = true := by
              rw [hc.1]; exact h3 t0 (List.mem_cons_self _ _)
            exact absurd hdig hd

theorem phoneRegexOk_iff (s : String) :
    phoneRegexOk s = true ↔
      matchDigits 10 s.data = some [] ∨ matchDigits 10 s.data = some ['\n'] := by
  cases h : matchDigits 10 s.data with
  | none => simp [phoneRegexOk, h]
  | some rest =>
    cases rest with
    | nil => simp [phoneRegexOk, h]
    | cons c t =>
      cases t with
      | nil => simp [phoneRegexOk, h]
      | cons c2 t2 => simp [phoneRegexOk, h]

theorem phoneRegexOk_characterization (s : String) :
    phoneRegexOk s = true ↔
      (s.data.length = 10 ∧ ∀ c ∈ s.data, pyIsDigit c) ∨
      (∃ t, s.data = t ++ ['\n'] ∧ t.length = 10 ∧ ∀ c ∈ t, pyIsDigit c) := by
  rw [phoneRegexOk_iff, matchDigits_eq_some, matchDigits_eq_some]
  constructor
  · rintro (⟨t, h1, h2, h3⟩ | ⟨t, h1, h2, h3⟩)
    · left
      refine ⟨by simp [h1, h2], ?_⟩
      intro c hc
      exact h3 c (by simpa [h1] using hc)
    · right; exact ⟨t, h1, h2, h3⟩
  · rintro (⟨h1, h2⟩ | ⟨t, h1, h2, h3⟩)
    · left; exact ⟨s.data, by simp, h1, h2⟩
    · right; exact ⟨t, h1, h2, h3⟩

/-- C4 counterexample: the 11-character string `"1234567890\n"` — length
other than 10, containing a non-digit character — is accepted by the phone
validator, because in Python's regex `$` also matches just before one final
newline. -/
theorem phone_trailing_newline_counterexample :
    mkPhone "1234567890\n" = .ok "1234567890\n" ∧
    ("1234567890\n" : String).length ≠ 10 :=
  ⟨rfl, by decide⟩

/-- C4 as amended: phone validation accepts `s` iff `s` is exactly ten
Unicode decimal digits (`\d`, so non-ASCII digits are also accepted), or
ten such digits followed by one trailing newline; every other string fails
with the validation error. -/
theorem phone_validation_characterization :
    ∀ s : String,
      (mkPhone s = .ok s ↔
        (s.data.length = 10 ∧ ∀ c ∈ s.data, pyIsDigit c) ∨
        (∃ t, s.data = t ++ ['\n'] ∧ t.length = 10 ∧ ∀ c ∈ t, pyIsDigit c)) ∧
      (mkPhone s = .error "Phone number must be exactly 10 digits." ↔
        ¬ ((s.data.length = 10 ∧ ∀ c ∈ s.data, pyIsDigit c) ∨
          (∃ t, s.data = t ++ ['\n'] ∧ t.length = 10 ∧ ∀ c ∈ t, pyIsDigit c))) := by
  intro s
  by_cases hp : phoneRegexOk s = true
  · have hchar := (phoneRegexOk_characterization s).mp hp
    constructor
    · exact ⟨fun _ => hchar, fun _ => by rw [mkPhone, if_pos hp]⟩
    · constructor
      · intro h; rw [mkPhone, if_pos hp] at h; cases h
      · intro h; exact absurd hchar h
  · have hchar : ¬ ((s.data.length = 10 ∧ ∀ c ∈ s.data, pyIsDigit c) ∨
        (∃ t, s.data = t ++ ['\n'] ∧ t.length = 10 ∧ ∀ c ∈ t, pyIsDigit c)) :=
      fun h => hp ((phoneRegexOk_characterization s).mpr h)
    constructor
    · constructor
      · intro h; rw [mkPhone, if_neg hp] at h; cases h
      · intro h; exact absurd h hchar
    · exact ⟨fun _ => hchar, fun _ => by rw [mkPhone, if_neg hp]⟩

/-- Witness for the amended C4: a ten-digit string is accepted. -/
theorem phone_validation_characterization_witness :
    mkPhone "1234567890" = .ok "1234567890" :=
  (phone_validation_characterization "1234567890").1.mpr
    (Or.inl ⟨by decide, by decide⟩)

end HW08
